/-
Verification of the trace ingestion and projection pipeline of the
noodler repository (apps `traces`, `traces.api`), against its
natural-language specification.

The Python sources are shallowly embedded below:
- `traces/utils.py`: `extract_attribute_value`, `parse_attributes`,
  `extract_gen_ai_fields`, `_decode_base64_id`, `_process_span`,
  `extract_trace_data`, `convert_nano_to_datetime`.
- `traces/models.py`: `RawTrace._extract_trace_data`,
  `RawTrace._create_trace_and_spans`, the `Trace` and `Span` models.
- `traces/tasks.py`: `process_trace`.
- `traces/api/views.py`: `TraceListView.post`.

Modelling conventions:
- Python values flowing through the attribute pipeline are the inductive
  `PyValue`; Python `None` is `PyValue.none`. Floats are `PyFloat`:
  exact finite rationals, the two infinities, and NaN.
- `int()` and `float()` return `Except PyExc`, distinguishing
  `ValueError`/`TypeError` (which the pipeline's `except` clauses catch)
  from `OverflowError` (which nothing catches): `Except.error` with the
  exception class models a raise, and functions that can let an
  exception escape (the gen-AI extractor and the two projectors built on
  it) are themselves `Except`-valued.
- Python dicts used by the pipeline are association lists with unique keys
  (`PyDict`); `pyDictSet` is `d[k] = v` (update first occurrence in place,
  else append), `dictGet?` is `d.get(k)`.
- `datetime` values are represented by their epoch-nanosecond value as an
  integer: `datetime.fromtimestamp(n / 1e9, UTC)` is an order-preserving
  map of the nanosecond value, and the code only ever compares, min/maxes
  and stores these values, so the representation is faithful for every
  property stated here.
- `json.loads` is an external library call; functions that invoke it take
  it as an explicit argument `jl : String -> Option PyValue` (`Option.none`
  models a raised `JSONDecodeError`). Theorems hold for every `jl`.
- `base64.b64decode(s).hex()` is modelled by `pyB64DecodeHex`, including
  CPython's non-strict behavior of skipping characters outside the base64
  alphabet and raising (here: `Option.none`) on incorrect padding.
- Fallible Python code returns `Option`/`Except`; a raised exception that
  propagates out of an embedded function is an `Except.error`.
-/
import Mathlib

set_option autoImplicit false

/-- The exception classes relevant to the pipeline's numeric coercions:
`valueOrType` stands for `ValueError` or `TypeError` — exactly the two
classes the `except` clauses in `extract_gen_ai_fields` catch — and
`overflow` for `OverflowError`, which is caught nowhere in the
pipeline and therefore propagates. -/
inductive PyExc where
  | valueOrType
  | overflow

/-- A Python float: a finite value (represented exactly as a rational,
abstracting IEEE rounding, which no property stated here observes),
positive or negative infinity, or NaN. Non-finite values are reachable
from decoded OTLP attributes: `MessageToDict` renders non-finite
doubles as the strings `"Infinity"`, `"-Infinity"` and `"NaN"`, and the
`float()` call in `extract_attribute_value` maps them back to these
values. -/
inductive PyFloat where
  | finite (q : Rat)
  | inf
  | negInf
  | nan

/-- Negation of a Python float. -/
def PyFloat.neg : PyFloat → PyFloat
  | .finite q => .finite (-q)
  | .inf => .negInf
  | .negInf => .inf
  | .nan => .nan

/-- The magnitude at which a value overflows the double range (the
half-ulp boundary just below `2^1024` is abstracted). -/
def doubleOverflow : Rat := 2 ^ 1024

/-- Clamp a finite decimal value into the double range the way `strtod`
does for string literals: overflow gives infinity, without raising. -/
def mkDouble (q : Rat) : PyFloat :=
  if q ≥ doubleOverflow then .inf
  else if q ≤ -doubleOverflow then .negInf
  else .finite q

/-- A Python value as it flows through the attribute pipeline:
`None`, `str`, `int`, `bool`, `float`, `list`, and `dict`. -/
inductive PyValue where
  | none
  | str (s : String)
  | int (n : Int)
  | bool (b : Bool)
  | float (x : PyFloat)
  | list (vs : List PyValue)
  | dict (d : List (String × PyValue))

/-- A Python dict with string keys, as an association list (all dicts built
by the embedded code have unique keys). -/
abbrev PyDict := List (String × PyValue)

/-- Python dict lookup `d.get(k)` on a Python dict (first matching key). -/
def dictGet? (d : PyDict) (k : String) : Option PyValue :=
  match d with
  | [] => Option.none
  | (k', v) :: rest => if k' = k then some v else dictGet? rest k

/-- Python dict assignment `d[k] = v`: update the first occurrence of `k` in
place, else append `(k, v)` at the end (Python dicts keep insertion
order and update values in place). -/
def pyDictSet (d : PyDict) (k : String) (v : PyValue) : PyDict :=
  match d with
  | [] => [(k, v)]
  | (k', v') :: rest =>
      if k' = k then (k', v) :: rest else (k', v') :: pyDictSet rest k v

/-- Whitespace stripped by Python `int()`/`float()` (the ASCII classes;
CPython also strips a few Unicode space characters, which no input in
this development uses). -/
def pyIsSpace (c : Char) : Bool :=
  c = ' ' || c = '\t' || c = '\n' || c = '\r' || c = Char.ofNat 11 || c = Char.ofNat 12

/-- Strip surrounding whitespace from a character list. -/
def pyStrStrip (cs : List Char) : List Char :=
  ((cs.dropWhile pyIsSpace).reverse.dropWhile pyIsSpace).reverse

/-- Value of a list of decimal digit characters. -/
def digitsVal (cs : List Char) : Nat :=
  cs.foldl (fun n c => n * 10 + (c.toNat - 48)) 0

/-- Tail of Python's base-10 digit grammar: digits with single
underscores allowed between digits; returns the digits with the
underscores removed. -/
def groupedDigitsAux : List Char → Option (List Char)
  | [] => some []
  | '_' :: c :: rest =>
      if c.isDigit then (groupedDigitsAux rest).map (fun ds => c :: ds)
      else Option.none
  | ['_'] => Option.none
  | c :: rest =>
      if c.isDigit then (groupedDigitsAux rest).map (fun ds => c :: ds)
      else Option.none

/-- Python's base-10 digit grammar `digit (["_"] digit)*`: nonempty, no
leading/trailing/doubled underscores. CPython additionally accepts
non-ASCII Unicode decimal digits, which no input in this development
uses. -/
def groupedDigits? : List Char → Option (List Char)
  | [] => Option.none
  | '_' :: _ => Option.none
  | cs => groupedDigitsAux cs

/-- Grouped digits or the empty list (around a decimal point, one side
may be empty). -/
def groupedOrEmpty? : List Char → Option (List Char)
  | [] => some []
  | cs => groupedDigits? cs

/-- Python `int(s)` for a string: optional surrounding whitespace, an
optional sign, then grouped decimal digits; anything else raises
`ValueError` (modelled as `Option.none`). -/
def pyIntOfString (s : String) : Option Int :=
  match pyStrStrip s.toList with
  | '+' :: rest => (groupedDigits? rest).map (fun ds => Int.ofNat (digitsVal ds))
  | '-' :: rest => (groupedDigits? rest).map (fun ds => -(Int.ofNat (digitsVal ds)))
  | rest => (groupedDigits? rest).map (fun ds => Int.ofNat (digitsVal ds))

/-- Python `float(s)` for a string: optional whitespace and sign; the
literals `inf`/`infinity`/`nan` (case-insensitive); or grouped digits
with an optional decimal point (`digits`, `digits.digits`, `.digits`,
`digits.`). A decimal value beyond the double range parses to infinity
(`strtod` overflow raises nothing). Exponent forms are not modelled; no
input in this development uses them. -/
def pyFloatOfString (s : String) : Option PyFloat :=
  let core : List Char → Option PyFloat := fun body =>
    let low := body.map Char.toLower
    if low = ['i', 'n', 'f'] ∨ low = ['i', 'n', 'f', 'i', 'n', 'i', 't', 'y'] then
      some PyFloat.inf
    else if low = ['n', 'a', 'n'] then some PyFloat.nan
    else
      match body.splitOn '.' with
      | [ip] => (groupedDigits? ip).map (fun ds => mkDouble (digitsVal ds : Rat))
      | [ip, fp] =>
          match groupedOrEmpty? ip, groupedOrEmpty? fp with
          | some ipd, some fpd =>
              if ipd = [] ∧ fpd = [] then Option.none
              else some (mkDouble ((digitsVal ipd : Rat)
                + (digitsVal fpd : Rat) / ((10 : Rat) ^ fpd.length)))
          | _, _ => Option.none
      | _ => Option.none
  match pyStrStrip s.toList with
  | '+' :: rest => core rest
  | '-' :: rest => (core rest).map PyFloat.neg
  | rest => core rest

/-- Python `int(v)` on an attribute value, with the exception class a
failure raises: identity on ints, `True = 1`/`False = 0`, truncation
toward zero on finite floats, decimal parse on strings. `int()` of an
infinite float raises `OverflowError`; of NaN or an unparsable string,
`ValueError`; of any other type, `TypeError`. -/
def pyInt (v : PyValue) : Except PyExc Int :=
  match v with
  | .int n => .ok n
  | .bool b => .ok (if b then 1 else 0)
  | .float x =>
      match x with
      | .finite q => .ok (if q < 0 then -Rat.floor (-q) else Rat.floor q)
      | .inf => .error .overflow
      | .negInf => .error .overflow
      | .nan => .error .valueOrType
  | .str s =>
      match pyIntOfString s with
      | some n => .ok n
      | Option.none => .error .valueOrType
  | _ => .error .valueOrType

/-- Python `float(v)` on an attribute value, with the exception class a
failure raises: `float()` of an int beyond the double range raises
`OverflowError`; of an unparsable string, `ValueError`; of any other
type, `TypeError`. -/
def pyFloat (v : PyValue) : Except PyExc PyFloat :=
  match v with
  | .float x => .ok x
  | .int n =>
      if (n : Rat) ≥ doubleOverflow ∨ (n : Rat) ≤ -doubleOverflow then
        .error .overflow
      else .ok (.finite (n : Rat))
  | .bool b => .ok (.finite (if b then 1 else 0))
  | .str s =>
      match pyFloatOfString s with
      | some x => .ok x
      | Option.none => .error .valueOrType
  | _ => .error .valueOrType

/-- Value of a base64 alphabet character. -/
def b64CharVal (c : Char) : Option Nat :=
  if 'A' ≤ c ∧ c ≤ 'Z' then some (c.toNat - 65)
  else if 'a' ≤ c ∧ c ≤ 'z' then some (c.toNat - 71)
  else if '0' ≤ c ∧ c ≤ '9' then some (c.toNat + 4)
  else if c = '+' then some 62
  else if c = '/' then some 63
  else Option.none

/-- Decode a run of 6-bit values into bytes: full quads give 3 bytes, a
final pair gives 1 byte, a final triple gives 2 bytes (dangling bits are
dropped, as CPython does in non-strict mode). -/
def b64Bytes : List Nat → List Nat
  | a :: b :: c :: d :: rest =>
      (a * 4 + b / 16) :: (b % 16 * 16 + c / 4) :: (c % 4 * 64 + d) :: b64Bytes rest
  | [a, b] => [a * 4 + b / 16]
  | [a, b, c] => [a * 4 + b / 16, b % 16 * 16 + c / 4]
  | _ => []

/-- Lowercase hex digit. -/
def hexDigit (n : Nat) : Char :=
  if n < 10 then Char.ofNat (48 + n) else Char.ofNat (87 + n)

/-- Two lowercase hex digits of a byte. -/
def byteToHex (b : Nat) : String :=
  String.mk [hexDigit (b / 16), hexDigit (b % 16)]

/-- Model of `base64.b64decode(s).hex()` with CPython's default (non-strict)
semantics: characters outside the alphabet are skipped, padding `=` must
sit at the end and complete a group of four, and incorrect padding raises
`binascii.Error` (modelled as `Option.none`). -/
def pyB64DecodeHex (s : String) : Option String :=
  let toks := s.toList.filter (fun c => (b64CharVal c).isSome ∨ c = '=')
  let data := toks.takeWhile (· ≠ '=')
  let tail := toks.dropWhile (· ≠ '=')
  if tail.all (· = '=') ∧ tail.length ≤ 2 ∧ (data.length + tail.length) % 4 = 0 then
    some (String.join ((b64Bytes (data.filterMap b64CharVal)).map byteToHex))
  else Option.none

/-- The tagged value union of one wire-format attribute (`AnyValue`).
`MessageToDict` renders `int_value` as a decimal string which the decoder
feeds to `int()`; the carried `Int` is that string's value. It renders
`double_value` as a JSON number or, for non-finite doubles, as the
string `"Infinity"`/`"-Infinity"`/`"NaN"`; the `float()` call in the
decoder maps either form to the carried `PyFloat` and never raises
here. `bytes_value` is rendered as a base64 text string and passed
through unchanged. `empty` stands for a value dict with a missing or
unrecognized tag. -/
inductive AnyValue where
  | stringValue (s : String)
  | intValue (n : Int)
  | boolValue (b : Bool)
  | doubleValue (x : PyFloat)
  | arrayValue (vs : List AnyValue)
  | bytesValue (s : String)
  | empty

/-- One attribute record: `{"key": ..., "value": {...}}`; either field may
be missing. -/
structure OtlpAttr where
  key : Option String
  value : Option AnyValue

/-- One span of the parsed document. `trace_id` / `span_id` are base64
text; the `*_unix_nano` timestamps are decimal strings. Any field may be
absent. -/
structure OtlpSpan where
  trace_id : Option String
  span_id : Option String
  name : Option String
  start_time_unix_nano : Option String
  end_time_unix_nano : Option String
  attributes : List OtlpAttr

/-- One `scope_spans` entry. -/
structure OtlpScopeSpans where
  spans : List OtlpSpan

/-- One `resource_spans` entry; `resource_attributes` is
`resource_span.get("resource", {}).get("attributes", [])`. -/
structure OtlpResourceSpans where
  resource_attributes : List OtlpAttr
  scope_spans : List OtlpScopeSpans

/-- The whole parsed trace-data document. -/
structure TracesDict where
  resource_spans : List OtlpResourceSpans

mutual

/-- Dispatch on the value tag of an `AnyValue` dict, mirroring the
`elif` chain of `extract_attribute_value`; an unrecognized or missing
tag yields Python `None`. -/
def evalAnyValue : AnyValue → PyValue
  | .stringValue s => .str s
  | .intValue n => .int n
  | .boolValue b => .bool b
  | .doubleValue x => .float x
  | .arrayValue vs => .list (evalAnyValueList vs)
  | .bytesValue s => .str s
  | .empty => .none

/-- Recursive extraction over the `values` list of an `array_value`. -/
def evalAnyValueList : List AnyValue → List PyValue
  | [] => []
  | v :: vs => evalAnyValue v :: evalAnyValueList vs

end

/-- Embedding of `extract_attribute_value(attr)`: `attr.get("value", {})` followed by
the tag dispatch; a missing `value` field falls through to `None`. -/
def extract_attribute_value (v : Option AnyValue) : PyValue :=
  match v with
  | Option.none => .none
  | some av => evalAnyValue av

/-- One iteration of the `parse_attributes` loop:
`result[key] = extract_attribute_value(attr)` guarded by `if key:`
(a missing or empty key is skipped). -/
def parseAttrStep (r : PyDict) (a : OtlpAttr) : PyDict :=
  match a.key with
  | Option.none => r
  | some k => if k = "" then r else pyDictSet r k (extract_attribute_value a.value)

/-- Embedding of `parse_attributes(trace_attributes)`: fold the loop over the record
list, starting from the empty dict (the `if not trace_attributes` early
return coincides with folding over `[]`). -/
def parse_attributes (l : List OtlpAttr) : PyDict :=
  l.foldl parseAttrStep []

/-- The `field_mapping` dict literal, in source order. -/
def field_mapping : List (String × String) :=
  [("gen_ai.provider.name", "provider_name"),
   ("gen_ai.operation.name", "operation_name"),
   ("gen_ai.request.model", "request_model"),
   ("gen_ai.request.max_tokens", "max_tokens"),
   ("gen_ai.request.top_p", "top_p"),
   ("gen_ai.response.id", "response_id"),
   ("gen_ai.response.model", "response_model"),
   ("gen_ai.response.finish_reasons", "finished_reasons"),
   ("gen_ai.usage.input_tokens", "input_tokens"),
   ("gen_ai.usage.output_tokens", "output_tokens"),
   ("gen_ai.system_instructions", "system_instructions"),
   ("gen_ai.input.messages", "input_messages"),
   ("gen_ai.output.messages", "output_messages")]

/-- The `json_fields` list. -/
def json_fields : List String :=
  ["input_messages", "output_messages", "system_instructions", "finished_reasons"]

/-- The `int_fields` list. -/
def int_fields : List String := ["max_tokens", "input_tokens", "output_tokens"]

/-- The `float_fields` list. -/
def float_fields : List String := ["top_p"]

/-- The per-field coercion applied to `value` inside the
`extract_gen_ai_fields` loop, in source branch order. JSON fields parse
string values with `json.loads` (a `JSONDecodeError` is caught and
gives `None`; non-strings pass through). Int fields apply `int()` to
non-`None` values inside `try ... except (ValueError, TypeError)`:
those two classes are caught and give `None`, while an `OverflowError`
— raised by `int()` on an infinite float — propagates. Float fields
behave the same way with `float()`. All other fields pass through
unchanged. -/
def coerceGenValue (jl : String → Option PyValue) (mk : String) (v : PyValue) :
    Except PyExc PyValue :=
  if mk ∈ json_fields then
    match v with
    | .str s => .ok ((jl s).getD .none)
    | _ => .ok v
  else if mk ∈ int_fields then
    match v with
    | .none => .ok .none
    | _ =>
        match pyInt v with
        | .ok n => .ok (.int n)
        | .error .valueOrType => .ok .none
        | .error .overflow => .error .overflow
  else if mk ∈ float_fields then
    match v with
    | .none => .ok .none
    | _ =>
        match pyFloat v with
        | .ok x => .ok (.float x)
        | .error .valueOrType => .ok .none
        | .error .overflow => .error .overflow
  else .ok v

/-- The `extract_gen_ai_fields` loop over the translation table, with
exception propagation: an uncaught `OverflowError` from one coercion
aborts the loop and the partially built dict is discarded. -/
def genFoldE (jl : String → Option PyValue) (attrs : PyDict) :
    List (String × String) → PyDict → Except PyExc PyDict
  | [], r => .ok r
  | pm :: l, r =>
      match dictGet? attrs pm.1 with
      | Option.none => genFoldE jl attrs l r
      | some v =>
          match coerceGenValue jl pm.2 v with
          | .ok cv => genFoldE jl attrs l (pyDictSet r pm.2 cv)
          | .error e => .error e

/-- Embedding of `extract_gen_ai_fields(span_attributes)`: walk
`field_mapping` in order, skip translation keys absent from the source
mapping, coerce and store the rest under the model field name; an
`OverflowError` raised by a coercion propagates out of the function.
`jl` is `json.loads`. -/
def extract_gen_ai_fields (jl : String → Option PyValue) (attrs : PyDict) :
    Except PyExc PyDict :=
  genFoldE jl attrs field_mapping []

/-- Embedding of `convert_nano_to_datetime`: `datetime.fromtimestamp(n / 1e9, UTC)`.
The datetime is represented by its epoch-nanosecond value; the float
division and `fromtimestamp` form an order-preserving map of that value,
and the pipeline only stores and min/max-compares the results, so the
identity representation is faithful for every property stated here. -/
def convert_nano_to_datetime (n : Int) : Int := n

/-- The timestamp handling of `_process_span` for one `*_unix_nano`
field: skipped when missing or empty (falsy), otherwise `int(...)` and
conversion, with `ValueError`/`TypeError` leaving the field `None`. -/
def parseNanoTime (o : Option String) : Option Int :=
  match o with
  | Option.none => Option.none
  | some s =>
      if s = "" then Option.none
      else (pyIntOfString s).map convert_nano_to_datetime

/-- Embedding of `_decode_base64_id(id_b64)`: `None` for a missing or empty value,
otherwise `base64.b64decode(id_b64).hex()` with any exception mapped to
`None`. -/
def _decode_base64_id (o : Option String) : Option String :=
  match o with
  | Option.none => Option.none
  | some s => if s = "" then Option.none else pyB64DecodeHex s

/-- The id handling of `RawTrace._extract_trace_data`: a falsy value is
skipped, otherwise decode, and a decode exception falls back to the raw
base64 text used as-is. -/
def b64DecodeOrRaw (o : Option String) : Option String :=
  match o with
  | Option.none => Option.none
  | some s => if s = "" then Option.none else some ((pyB64DecodeHex s).getD s)

/-- The span-record dict built by `_process_span` (and by the inline loop
body of `RawTrace._extract_trace_data`): `span_id`, `name`,
`start_time`, `end_time`, and the merged `extract_gen_ai_fields` dict. -/
structure SpanData where
  span_id : Option String
  name : String
  start_time : Option Int
  end_time : Option Int
  fields : PyDict

/-- Embedding of `_process_span(span)` from `traces/utils.py`; an
exception raised by `extract_gen_ai_fields` propagates. -/
def _process_span (jl : String → Option PyValue) (sp : OtlpSpan) :
    Except PyExc SpanData :=
  match extract_gen_ai_fields jl (parse_attributes sp.attributes) with
  | .error e => .error e
  | .ok gf =>
      .ok { span_id := _decode_base64_id sp.span_id,
            name := sp.name.getD "",
            start_time := parseNanoTime sp.start_time_unix_nano,
            end_time := parseNanoTime sp.end_time_unix_nano,
            fields := gf }

/-- The per-span record built inline by `RawTrace._extract_trace_data`;
identical to `_process_span` except that an undecodable `span_id` falls
back to the raw base64 text instead of `None`. -/
def rawTraceProcessSpan (jl : String → Option PyValue) (sp : OtlpSpan) :
    Except PyExc SpanData :=
  match extract_gen_ai_fields jl (parse_attributes sp.attributes) with
  | .error e => .error e
  | .ok gf =>
      .ok { span_id := b64DecodeOrRaw sp.span_id,
            name := sp.name.getD "",
            start_time := parseNanoTime sp.start_time_unix_nano,
            end_time := parseNanoTime sp.end_time_unix_nano,
            fields := gf }

/-- The extracted-trace record returned by both projector
implementations. `extract_trace_data` stores the attribute map under the
dict key `resource_attributes` and `RawTrace._extract_trace_data` under
`resource_metadata`; the content is the same and is held here in the
`resource_attrs` field. -/
structure ExtractedTrace where
  trace_id : String
  resource_attrs : PyDict
  spans : List SpanData

/-- The loop state of both projector implementations:
`resource_attributes`/`resource_metadata`, `trace_id`, `all_spans`. -/
structure ExtractState where
  resource_attrs : PyDict
  trace_id : Option String
  all_spans : List SpanData

/-- Left fold with exception short-circuiting: once one iteration
raises, nothing further runs and the exception propagates. -/
def foldE {σ α : Type} (f : σ → α → Except PyExc σ) : σ → List α → Except PyExc σ
  | st, [] => .ok st
  | st, a :: l =>
      match f st a with
      | .ok st' => foldE f st' l
      | .error e => .error e

/-- One iteration of the innermost span loop shared by both projector
implementations, parameterized by the trace-id candidate function and
the span-record builder: `if trace_id is None: trace_id = cand(span)`,
then build the span record — whose gen-AI extraction may raise,
aborting the whole projection — and append it. -/
def genSpanStepE (cand : OtlpSpan → Option String)
    (proc : OtlpSpan → Except PyExc SpanData)
    (st : ExtractState) (sp : OtlpSpan) : Except PyExc ExtractState :=
  let tid := if st.trace_id.isNone then cand sp else st.trace_id
  match proc sp with
  | .ok sd =>
      .ok { resource_attrs := st.resource_attrs, trace_id := tid,
            all_spans := st.all_spans ++ [sd] }
  | .error e => .error e

/-- One iteration of the outer `resource_spans` loop: overwrite the
resource attribute map when the group's attribute list is non-empty,
then run the scope/span loops. -/
def genResourceStepE (cand : OtlpSpan → Option String)
    (proc : OtlpSpan → Except PyExc SpanData)
    (st : ExtractState) (rs : OtlpResourceSpans) : Except PyExc ExtractState :=
  let st1 :=
    if rs.resource_attributes.isEmpty then st
    else { st with resource_attrs := parse_attributes rs.resource_attributes }
  foldE (fun s ss => foldE (genSpanStepE cand proc) s ss.spans) st1 rs.scope_spans

/-- Embedding of `extract_trace_data(traces_dict)` from
`traces/utils.py`: early `None` when there are no resource-span groups,
the nested loops — a span whose attribute coercion raises aborts the
whole call with that exception — and a final `None` when no trace id
was established. -/
def extract_trace_data (jl : String → Option PyValue) (td : TracesDict) :
    Except PyExc (Option ExtractedTrace) :=
  if td.resource_spans.isEmpty then .ok Option.none
  else
    match foldE
        (genResourceStepE (fun sp => _decode_base64_id sp.trace_id) (_process_span jl))
        ⟨[], Option.none, []⟩ td.resource_spans with
    | .error e => .error e
    | .ok st =>
        match st.trace_id with
        | Option.none => .ok Option.none
        | some tid => .ok (some ⟨tid, st.resource_attrs, st.all_spans⟩)

/-- Embedding of `RawTrace._extract_trace_data(traces_dict)` from
`traces/models.py`: same structure, but a truthy-yet-undecodable
`trace_id`/`span_id` falls back to the raw base64 text instead of being
skipped / left `None`. -/
def rawTrace_extract_trace_data (jl : String → Option PyValue) (td : TracesDict) :
    Except PyExc (Option ExtractedTrace) :=
  if td.resource_spans.isEmpty then .ok Option.none
  else
    match foldE
        (genResourceStepE (fun sp => b64DecodeOrRaw sp.trace_id) (rawTraceProcessSpan jl))
        ⟨[], Option.none, []⟩ td.resource_spans with
    | .error e => .error e
    | .ok st =>
        match st.trace_id with
        | Option.none => .ok Option.none
        | some tid => .ok (some ⟨tid, st.resource_attrs, st.all_spans⟩)

/-- The returned record of a projector call, collapsing both the
"nothing to project" result and a raising call to `None` (used to state
concrete results compactly). -/
def okOrNone (x : Except PyExc (Option ExtractedTrace)) : Option ExtractedTrace :=
  match x with
  | .ok r => r
  | .error _ => Option.none

/-- One `Trace` row: primary key, owning project, external trace id,
window timestamps, and the resource-attribute map (`metadata`). The
`Trace` model declares no database uniqueness constraint. -/
structure TraceRow where
  id : Nat
  project : Nat
  trace_id : String
  started_at : Int
  ended_at : Int
  metadata : PyDict

/-- The model field names the `Span(...)` constructor call of
`_create_trace_and_spans` fills from the gen-AI dict, in source order
(note: `system_instructions` is extracted but never persisted). -/
def spanGenKeys : List String :=
  ["provider_name", "operation_name", "request_model", "max_tokens", "top_p",
   "response_id", "response_model", "output_tokens", "input_tokens",
   "finished_reasons", "input_messages", "output_messages"]

/-- One `Span` row. The `Span` model in `traces/models.py` declares no
`Meta` and therefore no uniqueness constraint of any kind; the gen-AI
columns are kept here as a key-value list over `spanGenKeys`. -/
structure SpanRow where
  trace : Nat
  span_id : Option String
  name : String
  start_time : Int
  end_time : Option Int
  gen : List (String × PyValue)

/-- One `RawTrace` row (the spec's RawIngestedBatch): primary key,
owning project, stored protobuf bytes, received timestamp, status
(default `"pending"`). -/
structure RawTraceRow where
  id : Nat
  project : Nat
  payload : List Nat
  received_at : Int
  status : String

/-- The database state touched by the pipeline. -/
structure DB where
  rawTraces : List RawTraceRow
  traces : List TraceRow
  spans : List SpanRow
  nextTraceId : Nat

/-- Lookup of `Trace.objects.get_or_create(trace_id=..., project=...)`:
first row matching the natural key, with its position. -/
def findTrace? (l : List TraceRow) (project : Nat) (tid : String) :
    Option (Nat × TraceRow) :=
  match l with
  | [] => Option.none
  | t :: rest =>
      if t.project = project ∧ t.trace_id = tid then some (0, t)
      else (findTrace? rest project tid).map (fun p => (p.1 + 1, p.2))

/-- Python `min` over the resolved start times (`None` for an empty
list). -/
def pyMin? : List Int → Option Int
  | [] => Option.none
  | x :: xs => match pyMin? xs with
               | Option.none => some x
               | some m => some (min x m)

/-- Python `max` over the resolved end times. -/
def pyMax? : List Int → Option Int
  | [] => Option.none
  | x :: xs => match pyMax? xs with
               | Option.none => some x
               | some m => some (max x m)

/-- The `Span(...)` constructor call inside `_create_trace_and_spans`:
`span_id` and `name` from the record (both keys are always present in a
record built by the projector), `start_time or started_at`, `end_time`,
and `.get(...)` (default `None`) for each gen-AI column. -/
def mkSpanRow (pk : Nat) (started_at : Int) (sd : SpanData) : SpanRow :=
  { trace := pk,
    span_id := sd.span_id,
    name := sd.name,
    start_time := sd.start_time.getD started_at,
    end_time := sd.end_time,
    gen := spanGenKeys.map (fun k => (k, (dictGet? sd.fields k).getD .none)) }

/-- Embedding of `RawTrace._create_trace_and_spans(extracted_data)` against a
database state, with `self.project` and `self.received_at` passed
explicitly. Returns the new state and the primary key of the
created/updated trace (`None` models the early `return None`).
`Span.objects.bulk_create(..., ignore_conflicts=True)` only skips rows
that violate a declared uniqueness constraint, and the `Span` model
declares none, so the bulk insert appends every row. -/
def create_trace_and_spans (db : DB) (project : Nat) (received_at : Int)
    (extracted : Option ExtractedTrace) : DB × Option Nat :=
  match extracted with
  | Option.none => (db, Option.none)
  | some ed =>
    if ed.spans.isEmpty then (db, Option.none)
    else
      let start_times := ed.spans.filterMap (fun s => s.start_time)
      let end_times := ed.spans.filterMap (fun s => s.end_time)
      let started_at := (pyMin? start_times).getD received_at
      let ended_at := (pyMax? end_times).getD received_at
      match findTrace? db.traces project ed.trace_id with
      | some (i, old) =>
          let traces' := db.traces.set i
            { old with started_at := started_at, ended_at := ended_at,
                       metadata := ed.resource_attrs }
          let newSpans := ed.spans.map (mkSpanRow old.id started_at)
          ({ db with traces := traces', spans := db.spans ++ newSpans }, some old.id)
      | Option.none =>
          let row : TraceRow :=
            { id := db.nextTraceId, project := project, trace_id := ed.trace_id,
              started_at := started_at, ended_at := ended_at,
              metadata := ed.resource_attrs }
          let newSpans := ed.spans.map (mkSpanRow row.id started_at)
          ({ db with traces := db.traces ++ [row], spans := db.spans ++ newSpans,
                     nextTraceId := db.nextTraceId + 1 }, some row.id)

/-- Embedding of `process_trace(raw_trace_id)` from `traces/tasks.py`. `parse` models
`TracesData.ParseFromString` followed by `MessageToDict` (external
protobuf library; `Option.none` is a raised `DecodeError`). The task
body loads the row, parses the stored bytes, sets the status to
`"processed"` and returns the parsed dict; it has no exception handler,
calls neither `_extract_trace_data` nor `_create_trace_and_spans`, and
opens no transaction. The first component of the result is the database
state after the call: on the two raising paths no write has happened,
so the state is returned unchanged alongside the propagating
exception. -/
def process_trace (parse : List Nat → Option TracesDict) (db : DB)
    (raw_trace_id : Nat) : DB × Except String TracesDict :=
  match db.rawTraces.find? (fun r => r.id = raw_trace_id) with
  | Option.none => (db, .error "RawTrace.DoesNotExist")
  | some row =>
      match parse row.payload with
      | Option.none => (db, .error "google.protobuf.message.DecodeError")
      | some traces_dict =>
          let raws := db.rawTraces.map fun r =>
            if r.id = raw_trace_id then { r with status := "processed" } else r
          ({ db with rawTraces := raws }, .ok traces_dict)

/-- An HTTP response: status code and JSON body (a dict). -/
structure HttpResponse where
  status : Nat
  body : PyDict

/-- Embedding of `TraceListView.post(request)` against a database state and a
task queue. `contentType` and `body` come from the request; the project
was resolved by the API-key authentication collaborator. `createOk`
models whether `RawTrace.objects.create` raises (the one statement in
the `try` block that can; `errMsg` is `str(e)`). On the success path a
row is stored with the default status `"pending"`, one
`process_trace.delay(raw_trace.id)` job is enqueued and `201 {}` is
returned; an unsupported content type returns 400 before anything is
stored; a storage exception returns 400 with the message and enqueues
nothing. -/
def tracePostView (db : DB) (queue : List Nat) (project : Nat) (now : Int)
    (contentType : String) (body : List Nat) (createOk : Bool) (errMsg : String) :
    DB × List Nat × HttpResponse :=
  if contentType ≠ "application/x-protobuf" then
    (db, queue, ⟨400, [("error", .str "Unsupported content type")]⟩)
  else if ¬ createOk then
    (db, queue, ⟨400, [("error", .str errMsg)]⟩)
  else
    let rid := db.rawTraces.length
    let row : RawTraceRow :=
      { id := rid, project := project, payload := body, received_at := now,
        status := "pending" }
    ({ db with rawTraces := db.rawTraces ++ [row] }, queue ++ [rid], ⟨201, []⟩)

/-- All spans of a list of scope-span groups, in document order. -/
def scopesSpans (l : List OtlpScopeSpans) : List OtlpSpan :=
  l.foldr (fun ss acc => ss.spans ++ acc) []

/-- All spans of a list of resource-span groups, in document order. -/
def resourcesSpans (l : List OtlpResourceSpans) : List OtlpSpan :=
  l.foldr (fun rs acc => scopesSpans rs.scope_spans ++ acc) []

/-- All spans of a document, in document order. -/
def docSpans (td : TracesDict) : List OtlpSpan :=
  resourcesSpans td.resource_spans

/-- A base64 id field is "decodable" when it is absent, empty, or
successfully decodes; on such fields the two projector implementations
behave identically. -/
def idOk (o : Option String) : Bool :=
  match o with
  | Option.none => true
  | some s => s = "" || (pyB64DecodeHex s).isSome

/-- Concrete input for the C7 witness: one recognized string attribute
and one attribute whose value dict carries no recognized tag. -/
def c7attrs : List OtlpAttr :=
  [{ key := some "k1", value := some (AnyValue.stringValue "v") },
   { key := some "k2", value := some AnyValue.empty }]

/-- Concrete source mapping for the C8 witness: a non-numeric token
count, a non-JSON message payload, and a NaN-valued max-tokens (whose
`int()` raises `ValueError`, which the extractor catches). -/
def c8attrs : PyDict :=
  [("gen_ai.usage.input_tokens", PyValue.str "onehundred"),
   ("gen_ai.input.messages", PyValue.str "not json"),
   ("gen_ai.request.max_tokens", PyValue.float PyFloat.nan)]

/-- A `json.loads` instance for the C8 witness: rejects every string. -/
def c8jl : String → Option PyValue := fun _ => Option.none

/-- The dict `extract_gen_ai_fields` returns on `c8attrs` (insertion in
`field_mapping` order, every coercion failure caught and stored as
`None`). -/
def c8dw : PyDict :=
  [("max_tokens", PyValue.none), ("input_tokens", PyValue.none),
   ("input_messages", PyValue.none)]

/-- The C8 counterexample's source mapping: an infinite float under the
integer-typed max-tokens key, as produced by a decoded OTLP attribute
whose `double_value` is Infinity. -/
def c8inf : PyDict := [("gen_ai.request.max_tokens", PyValue.float PyFloat.inf)]

/-- Concrete inputs for the C5 witness: three spans with start times
3, 1, 2 and end times (7 and 5; the first span has none). -/
def c5ed : ExtractedTrace :=
  { trace_id := "t1", resource_attrs := [],
    spans :=
      [{ span_id := some "aa", name := "s1", start_time := some 3,
         end_time := Option.none, fields := [] },
       { span_id := some "bb", name := "s2", start_time := some 1,
         end_time := some 7, fields := [] },
       { span_id := some "cc", name := "s3", start_time := some 2,
         end_time := some 5, fields := [] }] }

def c5db : DB := { rawTraces := [], traces := [], spans := [], nextTraceId := 0 }

/-- The pre-existing Trace row for the C4 inputs. -/
def c4old : TraceRow :=
  { id := 0, project := 7, trace_id := "t", started_at := 0,
    ended_at := 100, metadata := [] }

def c4db : DB :=
  { rawTraces := [],
    traces := [c4old],
    spans := [{ trace := 0, span_id := some "aa", name := "old",
                start_time := 0, end_time := some 100, gen := [] }],
    nextTraceId := 1 }

def c4ed : ExtractedTrace :=
  { trace_id := "t", resource_attrs := [],
    spans := [{ span_id := some "bb", name := "new", start_time := some 50,
                end_time := some 60, fields := [] }] }

def c4result : DB := (create_trace_and_spans c4db 7 999 (some c4ed)).1

/-- Document for the C6 counterexample: the first span has no
`trace_id`, the second a decodable one. -/
def c6ctd : TracesDict :=
  { resource_spans :=
      [{ resource_attributes := [],
         scope_spans :=
           [{ spans :=
                [{ trace_id := Option.none, span_id := some "cc",
                   name := some "span one", start_time_unix_nano := Option.none,
                   end_time_unix_nano := Option.none, attributes := [] },
                 { trace_id := some "AAAA", span_id := some "dd",
                   name := some "span two", start_time_unix_nano := Option.none,
                   end_time_unix_nano := Option.none, attributes := [] }] }] }] }

/-- Concrete document for the C6 witness: a single span with a
decodable trace id. -/
def c6wtd : TracesDict :=
  { resource_spans :=
      [{ resource_attributes := [],
         scope_spans :=
           [{ spans :=
                [{ trace_id := some "AAAA", span_id := Option.none,
                   name := Option.none, start_time_unix_nano := Option.none,
                   end_time_unix_nano := Option.none, attributes := [] }] }] }] }

/-- The record `extract_trace_data` returns on `c6wtd` (its only span
has no decodable `span_id`, no timestamps and no attributes). -/
def c6rec : ExtractedTrace :=
  { trace_id := "000000", resource_attrs := [],
    spans := [{ span_id := Option.none, name := "", start_time := Option.none,
                end_time := Option.none, fields := [] }] }

/-- Document for the C10 counterexample: one span whose ids are the
undecodable base64 text `"abc"`. -/
def c10ctd : TracesDict :=
  { resource_spans :=
      [{ resource_attributes := [],
         scope_spans :=
           [{ spans :=
                [{ trace_id := some "abc", span_id := some "abc",
                   name := some "s", start_time_unix_nano := Option.none,
                   end_time_unix_nano := Option.none, attributes := [] }] }] }] }

/-- Concrete document for the C10 witness: one span whose ids are both
valid base64. -/
def c10wtd : TracesDict :=
  { resource_spans :=
      [{ resource_attributes := [],
         scope_spans :=
           [{ spans :=
                [{ trace_id := some "qw==", span_id := some "AAAA",
                   name := some "s", start_time_unix_nano := some "1000",
                   end_time_unix_nano := Option.none, attributes := [] }] }] }] }

/-- The spec's example scenario: one resource-span group, one scope,
two spans sharing one 16-byte trace id (bytes `ab` repeated, base64
`q6urq6urq6urq6urq6urqw==`). -/
def exampleDoc : TracesDict :=
  { resource_spans :=
      [{ resource_attributes := [],
         scope_spans :=
           [{ spans :=
                [{ trace_id := some "q6urq6urq6urq6urq6urqw==", span_id := some "qw==",
                   name := some "span one", start_time_unix_nano := some "1000",
                   end_time_unix_nano := some "2000", attributes := [] },
                 { trace_id := some "q6urq6urq6urq6urq6urqw==", span_id := some "AAAA",
                   name := some "span two", start_time_unix_nano := some "1500",
                   end_time_unix_nano := some "2500", attributes := [] }] }] }] }

/-- A stored batch in `"pending"` state, as created by the endpoint. -/
def exampleDb : DB :=
  { rawTraces := [{ id := 0, project := 7, payload := [10, 20, 30],
                    received_at := 500, status := "pending" }],
    traces := [], spans := [], nextTraceId := 0 }

/-- The same projected document persisted twice (claim C3's failing
input): two spans with distinct span ids under one trace id. -/
def c3ed : ExtractedTrace :=
  { trace_id := "abababababababababababababababab", resource_attrs := [],
    spans :=
      [{ span_id := some "0101", name := "s1", start_time := some 10,
         end_time := some 20, fields := [] },
       { span_id := some "0202", name := "s2", start_time := some 15,
         end_time := some 25, fields := [] }] }

def c3db1 : DB := (create_trace_and_spans c5db 7 99 (some c3ed)).1

def c3db2 : DB := (create_trace_and_spans c3db1 7 99 (some c3ed)).1

/-! Theorems -/

@[simp] theorem dictGet?_nil (k : String) : dictGet? [] k = Option.none := rfl

theorem dictGet?_pyDictSet (d : PyDict) (k : String) (v : PyValue) (k' : String) :
    dictGet? (pyDictSet d k v) k' = if k = k' then some v else dictGet? d k' := by
  induction d with
  | nil =>
      by_cases h : k = k' <;> simp [pyDictSet, dictGet?, h]
  | cons hd tl ih =>
      obtain ⟨k0, v0⟩ := hd
      by_cases h0 : k0 = k
      · subst h0
        by_cases h : k0 = k' <;> simp [pyDictSet, dictGet?, h]
      · by_cases h : k0 = k'
        · subst h
          have : ¬ k = k0 := fun hh => h0 hh.symm
          simp [pyDictSet, dictGet?, h0, this]
        · simp [pyDictSet, dictGet?, h0, h, ih]

theorem findSome?_append {α β : Type} (f : α → Option β) (l1 l2 : List α) :
    List.findSome? f (l1 ++ l2)
      = match List.findSome? f l1 with
        | some b => some b
        | Option.none => List.findSome? f l2 := by
  induction l1 with
  | nil => simp [List.findSome?]
  | cons a l ih =>
      cases h : f a <;> simp [List.findSome?, h, ih]

theorem scopesSpans_cons (ss : OtlpScopeSpans) (l : List OtlpScopeSpans) :
    scopesSpans (ss :: l) = ss.spans ++ scopesSpans l := rfl

theorem resourcesSpans_cons (rs : OtlpResourceSpans) (l : List OtlpResourceSpans) :
    resourcesSpans (rs :: l) = scopesSpans rs.scope_spans ++ resourcesSpans l := rfl

theorem spanFoldE_err (c : OtlpSpan → Option String)
    (p : OtlpSpan → Except PyExc SpanData) :
    ∀ (l : List OtlpSpan) (st : ExtractState) (e : PyExc),
      foldE (genSpanStepE c p) st l = .error e → ∃ sp ∈ l, p sp = .error e := by
  intro l
  induction l with
  | nil => intro st e h; simp [foldE] at h
  | cons sp l ih =>
      intro st e h
      simp only [foldE, genSpanStepE] at h
      cases hp : p sp with
      | ok sd =>
          simp only [hp] at h
          obtain ⟨sp', hmem, hsp'⟩ := ih _ e h
          exact ⟨sp', List.mem_cons_of_mem sp hmem, hsp'⟩
      | error e' =>
          simp only [hp] at h
          have he : e' = e := Except.error.inj h
          exact ⟨sp, List.mem_cons_self sp l, he ▸ hp⟩

theorem spanFoldE_tid_ok (c : OtlpSpan → Option String)
    (p : OtlpSpan → Except PyExc SpanData) :
    ∀ (l : List OtlpSpan) (st st' : ExtractState),
      foldE (genSpanStepE c p) st l = .ok st' →
      st'.trace_id = match st.trace_id with
                     | some t => some t
                     | Option.none => l.findSome? c := by
  intro l
  induction l with
  | nil =>
      intro st st' h
      simp only [foldE] at h
      have hst : st = st' := Except.ok.inj h
      subst hst
      cases hst : st.trace_id <;> simp [List.findSome?, hst]
  | cons sp l ih =>
      intro st st' h
      simp only [foldE, genSpanStepE] at h
      cases hp : p sp with
      | error e => simp only [hp] at h; cases h
      | ok sd =>
          simp only [hp] at h
          have h2 := ih _ st' h
          cases hst : st.trace_id with
          | some t => simpa [hst] using h2
          | none =>
              cases hc : c sp <;> simp_all [List.findSome?]

theorem scopeFoldE_err (c : OtlpSpan → Option String)
    (p : OtlpSpan → Except PyExc SpanData) :
    ∀ (l : List OtlpScopeSpans) (st : ExtractState) (e : PyExc),
      foldE (fun s ss => foldE (genSpanStepE c p) s ss.spans) st l = .error e →
      ∃ sp ∈ scopesSpans l, p sp = .error e := by
  intro l
  induction l with
  | nil => intro st e h; simp [foldE] at h
  | cons ss l ih =>
      intro st e h
      simp only [foldE] at h
      cases hin : foldE (genSpanStepE c p) st ss.spans with
      | error e' =>
          simp only [hin] at h
          have he : e' = e := Except.error.inj h
          obtain ⟨sp, hmem, hsp⟩ := spanFoldE_err c p ss.spans st e' hin
          refine ⟨sp, ?_, he ▸ hsp⟩
          rw [scopesSpans_cons]
          exact List.mem_append_left _ hmem
      | ok st1 =>
          simp only [hin] at h
          obtain ⟨sp, hmem, hsp⟩ := ih st1 e h
          refine ⟨sp, ?_, hsp⟩
          rw [scopesSpans_cons]
          exact List.mem_append_right _ hmem

theorem scopeFoldE_tid_ok (c : OtlpSpan → Option String)
    (p : OtlpSpan → Except PyExc SpanData) :
    ∀ (l : List OtlpScopeSpans) (st st' : ExtractState),
      foldE (fun s ss => foldE (genSpanStepE c p) s ss.spans) st l = .ok st' →
      st'.trace_id = match st.trace_id with
                     | some t => some t
                     | Option.none => (scopesSpans l).findSome? c := by
  intro l
  induction l with
  | nil =>
      intro st st' h
      simp only [foldE] at h
      have hst : st = st' := Except.ok.inj h
      subst hst
      cases hst : st.trace_id <;> simp [scopesSpans, List.findSome?, hst]
  | cons ss l ih =>
      intro st st' h
      simp only [foldE] at h
      cases hin : foldE (genSpanStepE c p) st ss.spans with
      | error e => simp only [hin] at h; cases h
      | ok st1 =>
          simp only [hin] at h
          have h1 := spanFoldE_tid_ok c p ss.spans st st1 hin
          have h2 := ih st1 st' h
          rw [h1] at h2
          rw [scopesSpans_cons, findSome?_append]
          cases hst : st.trace_id with
          | some t => simpa [hst] using h2
          | none =>
              cases hc : ss.spans.findSome? c <;> simp_all

theorem genResourceStepE_err (c : OtlpSpan → Option String)
    (p : OtlpSpan → Except PyExc SpanData)
    (st : ExtractState) (rs : OtlpResourceSpans) (e : PyExc)
    (h : genResourceStepE c p st rs = .error e) :
    ∃ sp ∈ scopesSpans rs.scope_spans, p sp = .error e := by
  simp only [genResourceStepE] at h
  exact scopeFoldE_err c p rs.scope_spans _ e h

theorem genResourceStepE_tid_ok (c : OtlpSpan → Option String)
    (p : OtlpSpan → Except PyExc SpanData)
    (st : ExtractState) (rs : OtlpResourceSpans) (st1 : ExtractState)
    (h : genResourceStepE c p st rs = .ok st1) :
    st1.trace_id = match st.trace_id with
                   | some t => some t
                   | Option.none => (scopesSpans rs.scope_spans).findSome? c := by
  simp only [genResourceStepE] at h
  have htid : (if rs.resource_attributes.isEmpty then st
      else { st with resource_attrs := parse_attributes rs.resource_attributes }).trace_id
      = st.trace_id := by
    by_cases hh : rs.resource_attributes.isEmpty <;> simp [hh]
  have hres := scopeFoldE_tid_ok c p rs.scope_spans _ st1 h
  rw [htid] at hres
  exact hres

theorem resFoldE_err (c : OtlpSpan → Option String)
    (p : OtlpSpan → Except PyExc SpanData) :
    ∀ (l : List OtlpResourceSpans) (st : ExtractState) (e : PyExc),
      foldE (genResourceStepE c p) st l = .error e →
      ∃ sp ∈ resourcesSpans l, p sp = .error e := by
  intro l
  induction l with
  | nil => intro st e h; simp [foldE] at h
  | cons rs l ih =>
      intro st e h
      simp only [foldE] at h
      cases hin : genResourceStepE c p st rs with
      | error e' =>
          simp only [hin] at h
          have he : e' = e := Except.error.inj h
          obtain ⟨sp, hmem, hsp⟩ := genResourceStepE_err c p st rs e' hin
          refine ⟨sp, ?_, he ▸ hsp⟩
          rw [resourcesSpans_cons]
          exact List.mem_append_left _ hmem
      | ok st1 =>
          simp only [hin] at h
          obtain ⟨sp, hmem, hsp⟩ := ih st1 e h
          refine ⟨sp, ?_, hsp⟩
          rw [resourcesSpans_cons]
          exact List.mem_append_right _ hmem

theorem resFoldE_tid_ok (c : OtlpSpan → Option String)
    (p : OtlpSpan → Except PyExc SpanData) :
    ∀ (l : List OtlpResourceSpans) (st st' : ExtractState),
      foldE (genResourceStepE c p) st l = .ok st' →
      st'.trace_id = match st.trace_id with
                     | some t => some t
                     | Option.none => (resourcesSpans l).findSome? c := by
  intro l
  induction l with
  | nil =>
      intro st st' h
      simp only [foldE] at h
      have hst : st = st' := Except.ok.inj h
      subst hst
      cases hst : st.trace_id <;> simp [resourcesSpans, List.findSome?, hst]
  | cons rs l ih =>
      intro st st' h
      simp only [foldE] at h
      cases hin : genResourceStepE c p st rs with
      | error e => simp only [hin] at h; cases h
      | ok st1 =>
          simp only [hin] at h
          have h1 := genResourceStepE_tid_ok c p st rs st1 hin
          have h2 := ih st1 st' h
          rw [h1] at h2
          rw [resourcesSpans_cons, findSome?_append]
          cases hst : st.trace_id with
          | some t => simpa [hst] using h2
          | none =>
              cases hc : (scopesSpans rs.scope_spans).findSome? c <;> simp_all

theorem spanFoldE_congr (c1 c2 : OtlpSpan → Option String)
    (p1 p2 : OtlpSpan → Except PyExc SpanData) :
    ∀ (l : List OtlpSpan),
      (∀ sp ∈ l, c1 sp = c2 sp) → (∀ sp ∈ l, p1 sp = p2 sp) →
      ∀ st, foldE (genSpanStepE c1 p1) st l = foldE (genSpanStepE c2 p2) st l := by
  intro l
  induction l with
  | nil => intro _ _ st; rfl
  | cons sp l ih =>
      intro hc hp st
      have hc1 := hc sp (List.mem_cons_self sp l)
      have hp1 := hp sp (List.mem_cons_self sp l)
      simp only [foldE, genSpanStepE, hc1, hp1]
      cases h2 : p2 sp with
      | error e => rfl
      | ok sd =>
          exact ih (fun b hb => hc b (List.mem_cons_of_mem sp hb))
            (fun b hb => hp b (List.mem_cons_of_mem sp hb)) _

theorem scopeFoldE_congr (c1 c2 : OtlpSpan → Option String)
    (p1 p2 : OtlpSpan → Except PyExc SpanData) :
    ∀ (l : List OtlpScopeSpans),
      (∀ sp ∈ scopesSpans l, c1 sp = c2 sp) →
      (∀ sp ∈ scopesSpans l, p1 sp = p2 sp) →
      ∀ st, foldE (fun s ss => foldE (genSpanStepE c1 p1) s ss.spans) st l
            = foldE (fun s ss => foldE (genSpanStepE c2 p2) s ss.spans) st l := by
  intro l
  induction l with
  | nil => intro _ _ st; rfl
  | cons ss l ih =>
      intro hc hp st
      have memL : ∀ sp ∈ ss.spans, sp ∈ scopesSpans (ss :: l) := by
        intro sp hsp; rw [scopesSpans_cons]; exact List.mem_append_left _ hsp
      have memR : ∀ sp ∈ scopesSpans l, sp ∈ scopesSpans (ss :: l) := by
        intro sp hsp; rw [scopesSpans_cons]; exact List.mem_append_right _ hsp
      simp only [foldE]
      rw [spanFoldE_congr c1 c2 p1 p2 ss.spans
        (fun b hb => hc b (memL b hb)) (fun b hb => hp b (memL b hb)) st]
      cases h2 : foldE (genSpanStepE c2 p2) st ss.spans with
      | error e => rfl
      | ok st1 =>
          exact ih (fun b hb => hc b (memR b hb)) (fun b hb => hp b (memR b hb)) st1

theorem resFoldE_congr (c1 c2 : OtlpSpan → Option String)
    (p1 p2 : OtlpSpan → Except PyExc SpanData) :
    ∀ (l : List OtlpResourceSpans),
      (∀ sp ∈ resourcesSpans l, c1 sp = c2 sp) →
      (∀ sp ∈ resourcesSpans l, p1 sp = p2 sp) →
      ∀ st, foldE (genResourceStepE c1 p1) st l
            = foldE (genResourceStepE c2 p2) st l := by
  intro l
  induction l with
  | nil => intro _ _ st; rfl
  | cons rs l ih =>
      intro hc hp st
      have memL : ∀ sp ∈ scopesSpans rs.scope_spans, sp ∈ resourcesSpans (rs :: l) := by
        intro sp hsp; rw [resourcesSpans_cons]; exact List.mem_append_left _ hsp
      have memR : ∀ sp ∈ resourcesSpans l, sp ∈ resourcesSpans (rs :: l) := by
        intro sp hsp; rw [resourcesSpans_cons]; exact List.mem_append_right _ hsp
      simp only [foldE, genResourceStepE]
      rw [scopeFoldE_congr c1 c2 p1 p2 rs.scope_spans
        (fun b hb => hc b (memL b hb)) (fun b hb => hp b (memL b hb))]
      cases h2 : foldE (fun s ss => foldE (genSpanStepE c2 p2) s ss.spans)
          (if rs.resource_attributes.isEmpty then st
           else { st with resource_attrs := parse_attributes rs.resource_attributes })
          rs.scope_spans with
      | error e => rfl
      | ok st1 =>
          exact ih (fun b hb => hc b (memR b hb)) (fun b hb => hp b (memR b hb)) st1

theorem parse_presence (l : List OtlpAttr) :
    ∀ (r : PyDict) (k : String), (dictGet? r k).isSome →
      (dictGet? (l.foldl parseAttrStep r) k).isSome := by
  induction l with
  | nil => intro r k h; simpa using h
  | cons a l ih =>
      intro r k h
      rw [List.foldl_cons]
      apply ih
      obtain ⟨ak, av⟩ := a
      cases ak with
      | none => simpa [parseAttrStep] using h
      | some k0 =>
          by_cases h0 : k0 = ""
          · simpa [parseAttrStep, h0] using h
          · simp only [parseAttrStep, h0, if_false]
            rw [dictGet?_pyDictSet]
            by_cases hkk : k0 = k <;> simp [hkk, h]

theorem parse_presence_mem (l : List OtlpAttr) :
    ∀ (r : PyDict) (a : OtlpAttr) (k : String), a ∈ l → a.key = some k → k ≠ "" →
      (dictGet? (l.foldl parseAttrStep r) k).isSome := by
  induction l with
  | nil => intro r a k h; cases h
  | cons b l ih =>
      intro r a k hmem hk hne
      rcases List.mem_cons.mp hmem with hb | hl
      · subst hb
        rw [List.foldl_cons]
        apply parse_presence
        obtain ⟨ak, av⟩ := a
        cases hk
        simp only [parseAttrStep, hne, if_false]
        rw [dictGet?_pyDictSet]
        simp
      · exact ih (parseAttrStep r b) a k hl hk hne

theorem parse_sound (l : List OtlpAttr) :
    ∀ (r : PyDict) (k : String) (v : PyValue),
      dictGet? (l.foldl parseAttrStep r) k = some v →
      dictGet? r k = some v
        ∨ ∃ a ∈ l, a.key = some k ∧ v = extract_attribute_value a.value := by
  induction l with
  | nil => intro r k v h; exact Or.inl h
  | cons a l ih =>
      intro r k v h
      rw [List.foldl_cons] at h
      rcases ih (parseAttrStep r a) k v h with h1 | ⟨b, hb, hbk, hbv⟩
      · obtain ⟨ak, av⟩ := a
        cases ak with
        | none => exact Or.inl h1
        | some k0 =>
            by_cases h0 : k0 = ""
            · simp only [parseAttrStep, h0, if_true] at h1
              exact Or.inl h1
            · simp only [parseAttrStep, h0, if_false] at h1
              rw [dictGet?_pyDictSet] at h1
              by_cases hkk : k0 = k
              · subst hkk
                rw [if_pos rfl] at h1
                refine Or.inr ⟨⟨some k0, av⟩, List.mem_cons_self _ _, rfl, ?_⟩
                exact (Option.some.inj h1).symm
              · rw [if_neg hkk] at h1
                exact Or.inl h1
      · exact Or.inr ⟨b, List.mem_cons_of_mem a hb, hbk, hbv⟩

theorem coerce_err_overflow (jl : String → Option PyValue) (mk : String)
    (v : PyValue) (e : PyExc) (h : coerceGenValue jl mk v = .error e) :
    e = PyExc.overflow := by
  unfold coerceGenValue at h
  by_cases h1 : mk ∈ json_fields
  · rw [if_pos h1] at h
    cases v <;> simp at h
  · rw [if_neg h1] at h
    by_cases h2 : mk ∈ int_fields
    · rw [if_pos h2] at h
      cases v with
      | none => simp at h
      | str s => cases hpi : pyInt (PyValue.str s) with
          | ok n => simp [hpi] at h
          | error e' => cases e' <;> simp_all
      | int n => cases hpi : pyInt (PyValue.int n) with
          | ok m => simp [hpi] at h
          | error e' => cases e' <;> simp_all
      | bool b => cases hpi : pyInt (PyValue.bool b) with
          | ok m => simp [hpi] at h
          | error e' => cases e' <;> simp_all
      | float x => cases hpi : pyInt (PyValue.float x) with
          | ok m => simp [hpi] at h
          | error e' => cases e' <;> simp_all
      | list vs => cases hpi : pyInt (PyValue.list vs) with
          | ok m => simp [hpi] at h
          | error e' => cases e' <;> simp_all
      | dict d => cases hpi : pyInt (PyValue.dict d) with
          | ok m => simp [hpi] at h
          | error e' => cases e' <;> simp_all
    · rw [if_neg h2] at h
      by_cases h3 : mk ∈ float_fields
      · rw [if_pos h3] at h
        cases v with
        | none => simp at h
        | str s => cases hpf : pyFloat (PyValue.str s) with
            | ok x => simp [hpf] at h
            | error e' => cases e' <;> simp_all
        | int n => cases hpf : pyFloat (PyValue.int n) with
            | ok x => simp [hpf] at h
            | error e' => cases e' <;> simp_all
        | bool b => cases hpf : pyFloat (PyValue.bool b) with
            | ok x => simp [hpf] at h
            | error e' => cases e' <;> simp_all
        | float x => cases hpf : pyFloat (PyValue.float x) with
            | ok y => simp [hpf] at h
            | error e' => cases e' <;> simp_all
        | list vs => cases hpf : pyFloat (PyValue.list vs) with
            | ok x => simp [hpf] at h
            | error e' => cases e' <;> simp_all
        | dict d => cases hpf : pyFloat (PyValue.dict d) with
            | ok x => simp [hpf] at h
            | error e' => cases e' <;> simp_all
      · rw [if_neg h3] at h
        simp at h

theorem coerce_int_caught (jl : String → Option PyValue) (mk : String) (v : PyValue)
    (hint : mk ∈ int_fields) (hnj : mk ∉ json_fields)
    (hne : v ≠ PyValue.none) (hfail : pyInt v = .error PyExc.valueOrType) :
    coerceGenValue jl mk v = .ok PyValue.none := by
  unfold coerceGenValue
  rw [if_neg hnj, if_pos hint]
  cases v with
  | none => exact absurd rfl hne
  | str s => simp [hfail]
  | int n => simp [hfail]
  | bool b => simp [hfail]
  | float x => simp [hfail]
  | list vs => simp [hfail]
  | dict d => simp [hfail]

theorem coerce_json_fail (jl : String → Option PyValue) (mk : String) (s : String)
    (hjson : mk ∈ json_fields) (hfail : jl s = Option.none) :
    coerceGenValue jl mk (PyValue.str s) = .ok PyValue.none := by
  unfold coerceGenValue
  rw [if_pos hjson]
  simp [hfail]

theorem genFoldE_err (jl : String → Option PyValue) (attrs : PyDict) :
    ∀ (l : List (String × String)) (r : PyDict) (e : PyExc),
      genFoldE jl attrs l r = .error e → e = PyExc.overflow := by
  intro l
  induction l with
  | nil => intro r e h; simp [genFoldE] at h
  | cons pm l ih =>
      intro r e h
      simp only [genFoldE] at h
      cases hv : dictGet? attrs pm.1 with
      | none => simp only [hv] at h; exact ih r e h
      | some v =>
          simp only [hv] at h
          cases hc : coerceGenValue jl pm.2 v with
          | ok cv => simp only [hc] at h; exact ih _ e h
          | error e' =>
              simp only [hc] at h
              have he : e' = e := Except.error.inj h
              exact he ▸ coerce_err_overflow jl pm.2 v e' hc

theorem genFoldE_notMem_ok (jl : String → Option PyValue) (attrs : PyDict) :
    ∀ (l : List (String × String)) (r : PyDict) (mk : String) (d : PyDict),
      mk ∉ l.map Prod.snd → genFoldE jl attrs l r = .ok d →
      dictGet? d mk = dictGet? r mk := by
  intro l
  induction l with
  | nil =>
      intro r mk d h hok
      simp only [genFoldE] at hok
      have : r = d := Except.ok.inj hok
      subst this; rfl
  | cons pm l ih =>
      intro r mk d h hok
      simp only [List.map_cons, List.mem_cons, not_or] at h
      obtain ⟨h1, h2⟩ := h
      simp only [genFoldE] at hok
      cases hv : dictGet? attrs pm.1 with
      | none => simp only [hv] at hok; exact ih r mk d h2 hok
      | some v =>
          simp only [hv] at hok
          cases hc : coerceGenValue jl pm.2 v with
          | error e => simp only [hc] at hok; cases hok
          | ok cv =>
              simp only [hc] at hok
              rw [ih _ mk d h2 hok, dictGet?_pyDictSet,
                if_neg (fun he => h1 he.symm)]

theorem genFoldE_lookup_ok (jl : String → Option PyValue) (attrs : PyDict) :
    ∀ (l : List (String × String)) (r : PyDict) (pk mk : String) (d : PyDict),
      (l.map Prod.snd).Nodup → (pk, mk) ∈ l → dictGet? r mk = Option.none →
      genFoldE jl attrs l r = .ok d →
      dictGet? d mk
        = match dictGet? attrs pk with
          | Option.none => Option.none
          | some v =>
              match coerceGenValue jl mk v with
              | .ok cv => some cv
              | .error _ => Option.none := by
  intro l
  induction l with
  | nil => intro r pk mk d _ h; cases h
  | cons pm l ih =>
      intro r pk mk d hnd hmem hr hok
      rw [List.map_cons, List.nodup_cons] at hnd
      obtain ⟨hnmem, hnd'⟩ := hnd
      simp only [genFoldE] at hok
      rcases List.mem_cons.mp hmem with hpm | hl
      · cases hpm
        cases hv : dictGet? attrs pk with
        | none =>
            simp only [hv] at hok
            rw [genFoldE_notMem_ok jl attrs l r mk d hnmem hok, hr]
        | some v =>
            simp only [hv] at hok
            cases hc : coerceGenValue jl mk v with
            | error e => simp only [hc] at hok; cases hok
            | ok cv =>
                simp only [hc] at hok
                rw [genFoldE_notMem_ok jl attrs l _ mk d hnmem hok,
                  dictGet?_pyDictSet, if_pos rfl]
                simp [hc]
      · have hmk : mk ∈ l.map Prod.snd :=
          List.mem_map.mpr ⟨(pk, mk), hl, rfl⟩
        have hne : pm.2 ≠ mk := fun he => hnmem (he ▸ hmk)
        cases hv : dictGet? attrs pm.1 with
        | none => simp only [hv] at hok; exact ih r pk mk d hnd' hl hr hok
        | some v =>
            simp only [hv] at hok
            cases hc : coerceGenValue jl pm.2 v with
            | error e => simp only [hc] at hok; cases hok
            | ok cv =>
                simp only [hc] at hok
                refine ih _ pk mk d hnd' hl ?_ hok
                rw [dictGet?_pyDictSet, if_neg hne]
                exact hr

theorem extract_gen_ai_err (jl : String → Option PyValue) (attrs : PyDict)
    (e : PyExc) (h : extract_gen_ai_fields jl attrs = .error e) :
    e = PyExc.overflow :=
  genFoldE_err jl attrs field_mapping [] e h

theorem extract_gen_ai_lookup_ok (jl : String → Option PyValue) (attrs : PyDict)
    (pk mk : String) (d : PyDict) (h : (pk, mk) ∈ field_mapping)
    (hok : extract_gen_ai_fields jl attrs = .ok d) :
    dictGet? d mk
      = match dictGet? attrs pk with
        | Option.none => Option.none
        | some v =>
            match coerceGenValue jl mk v with
            | .ok cv => some cv
            | .error _ => Option.none :=
  genFoldE_lookup_ok jl attrs field_mapping [] pk mk d (by decide) h rfl hok

theorem findTrace?_eq_none_iff (l : List TraceRow) (project : Nat) (tid : String) :
    findTrace? l project tid = Option.none
      ↔ ∀ t ∈ l, ¬ (t.project = project ∧ t.trace_id = tid) := by
  induction l with
  | nil => simp [findTrace?]
  | cons t l ih =>
      by_cases h : t.project = project ∧ t.trace_id = tid
      · simp [findTrace?, h]
      · simp only [findTrace?, if_neg h, Option.map_eq_none', ih, List.mem_cons]
        constructor
        · rintro hall t' (rfl | ht') <;> [exact h; exact hall t' ht']
        · intro hall t' ht'; exact hall t' (Or.inr ht')

theorem decode_eq_of_idOk (o : Option String) (h : idOk o) :
    _decode_base64_id o = b64DecodeOrRaw o := by
  cases o with
  | none => rfl
  | some s =>
      by_cases h0 : s = ""
      · simp [_decode_base64_id, b64DecodeOrRaw, h0]
      · simp only [idOk, h0, decide_eq_false, Bool.false_or] at h
        obtain ⟨x, hx⟩ := Option.isSome_iff_exists.mp h
        simp [_decode_base64_id, b64DecodeOrRaw, h0, hx]

theorem process_eq_of_idOk (jl : String → Option PyValue) (sp : OtlpSpan)
    (h : idOk sp.span_id) :
    _process_span jl sp = rawTraceProcessSpan jl sp := by
  unfold _process_span rawTraceProcessSpan
  rw [decode_eq_of_idOk sp.span_id h]



/-- Claim C7 as stated is false: `parse_attributes` guards each record
with Python truthiness (`if key:`), so a record whose key is present but
equal to the empty string is dropped entirely — the key `""` is present
in the input yet absent from the output (which here is the empty dict). -/
theorem C7_counterexample :
    (∃ a ∈ [({ key := some "", value := some (AnyValue.stringValue "x") } : OtlpAttr)],
        a.key = some "")
    ∧ parse_attributes [{ key := some "", value := some (AnyValue.stringValue "x") }] = [] := by
  exact ⟨⟨_, List.mem_cons_self _ _, rfl⟩, rfl⟩

/-- Claim C7 (amended): `parse_attributes` is total and, for every input
list, every record carrying a present non-empty key appears as a key of
the output; every output value is `extract_attribute_value` of one of
the input records with that key, and an unrecognized or missing
value-tag resolves to the Python `None` marker rather than aborting
decoding of the remaining records. Records with a missing or empty key
are skipped. -/
theorem C7_attribute_decoder_amended :
    ∀ (attrs : List OtlpAttr),
      (∀ a ∈ attrs, ∀ k, a.key = some k → k ≠ "" →
          (dictGet? (parse_attributes attrs) k).isSome)
      ∧ (∀ k v, dictGet? (parse_attributes attrs) k = some v →
          ∃ a ∈ attrs, a.key = some k ∧ v = extract_attribute_value a.value)
      ∧ extract_attribute_value (some AnyValue.empty) = PyValue.none
      ∧ extract_attribute_value Option.none = PyValue.none := by
  intro attrs
  refine ⟨?_, ?_, rfl, rfl⟩
  · intro a ha k hk hne
    exact parse_presence_mem attrs [] a k ha hk hne
  · intro k v hv
    rcases parse_sound attrs [] k v hv with h | h
    · simp at h
    · exact h

theorem C7_attribute_decoder_amended_witness :
    (dictGet? (parse_attributes c7attrs) "k2").isSome
    ∧ (∃ a ∈ c7attrs, a.key = some "k2" ∧ PyValue.none = extract_attribute_value a.value) := by
  constructor
  · exact (C7_attribute_decoder_amended c7attrs).1
      { key := some "k2", value := some AnyValue.empty }
      (List.mem_cons_of_mem _ (List.mem_cons_self _ _)) "k2" rfl (by decide)
  · exact (C7_attribute_decoder_amended c7attrs).2.1 "k2" PyValue.none rfl

/-- Claim C8 as stated is false: `extract_gen_ai_fields` can raise. A
well-formed OTLP attribute whose `double_value` is Infinity decodes to
an infinite float; under the integer-typed key
`gen_ai.request.max_tokens`, `int(value)` then raises `OverflowError`,
which `except (ValueError, TypeError)` does not catch, so the extractor
propagates the exception instead of setting the field to "absent". -/
theorem C8_counterexample :
    parse_attributes
        [{ key := some "gen_ai.request.max_tokens",
           value := some (AnyValue.doubleValue PyFloat.inf) }] = c8inf
    ∧ pyInt (PyValue.float PyFloat.inf) = .error PyExc.overflow
    ∧ extract_gen_ai_fields (fun _ => Option.none) c8inf = .error PyExc.overflow := by
  exact ⟨rfl, rfl, rfl⟩

/-- Claim C8 (amended): the only exception `extract_gen_ai_fields` can
raise is `OverflowError` (reached through `int()`/`float()` on an
infinite float value); every `ValueError`/`TypeError` is caught, so
whenever the call returns: an integer-typed field whose non-`None`
value fails `int()` with `ValueError`/`TypeError` (a non-numeric
string, NaN, a wrong type) is stored as `None` ("absent") instead of
raising; a structured-JSON-typed field given a string that `json.loads`
rejects is stored as `None` instead of raising; and a
translation-table key whose protobuf key is missing from the source
mapping is omitted from the result entirely (not present as null). -/
theorem C8_gen_ai_extractor_tolerant :
    ∀ (jl : String → Option PyValue) (attrs : PyDict),
      (∀ e, extract_gen_ai_fields jl attrs = .error e → e = PyExc.overflow)
      ∧ (∀ pk mk v d, (pk, mk) ∈ field_mapping → mk ∈ int_fields →
        dictGet? attrs pk = some v → v ≠ PyValue.none →
        pyInt v = .error PyExc.valueOrType →
        extract_gen_ai_fields jl attrs = .ok d →
        dictGet? d mk = some PyValue.none)
      ∧ (∀ pk mk s d, (pk, mk) ∈ field_mapping → mk ∈ json_fields →
        dictGet? attrs pk = some (PyValue.str s) → jl s = Option.none →
        extract_gen_ai_fields jl attrs = .ok d →
        dictGet? d mk = some PyValue.none)
      ∧ (∀ pk mk d, (pk, mk) ∈ field_mapping → dictGet? attrs pk = Option.none →
        extract_gen_ai_fields jl attrs = .ok d →
        dictGet? d mk = Option.none) := by
  intro jl attrs
  refine ⟨?_, ?_, ?_, ?_⟩
  · intro e h
    exact extract_gen_ai_err jl attrs e h
  · intro pk mk v d hpm hint hget hne hfail hok
    rw [extract_gen_ai_lookup_ok jl attrs pk mk d hpm hok, hget]
    have hnj : mk ∉ json_fields := by
      have hall : ∀ x ∈ int_fields, x ∉ json_fields := by decide
      exact hall mk hint
    simp only [coerce_int_caught jl mk v hint hnj hne hfail]
  · intro pk mk s d hpm hjson hget hfail hok
    rw [extract_gen_ai_lookup_ok jl attrs pk mk d hpm hok, hget]
    simp only [coerce_json_fail jl mk s hjson hfail]
  · intro pk mk d hpm hget hok
    rw [extract_gen_ai_lookup_ok jl attrs pk mk d hpm hok, hget]

theorem C8_gen_ai_extractor_tolerant_witness :
    PyExc.overflow = PyExc.overflow
    ∧ pyInt (PyValue.str "onehundred") = .error PyExc.valueOrType
    ∧ pyInt (PyValue.float PyFloat.nan) = .error PyExc.valueOrType
    ∧ extract_gen_ai_fields c8jl c8attrs = .ok c8dw
    ∧ dictGet? c8dw "input_tokens" = some PyValue.none
    ∧ dictGet? c8dw "max_tokens" = some PyValue.none
    ∧ dictGet? c8dw "input_messages" = some PyValue.none
    ∧ dictGet? c8dw "top_p" = Option.none := by
  refine ⟨?_, rfl, rfl, rfl, ?_, ?_, ?_, ?_⟩
  · exact (C8_gen_ai_extractor_tolerant (fun _ => Option.none) c8inf).1
      PyExc.overflow rfl
  · exact (C8_gen_ai_extractor_tolerant c8jl c8attrs).2.1
      "gen_ai.usage.input_tokens" "input_tokens" (PyValue.str "onehundred") c8dw
      (by decide) (by decide) rfl (fun h => PyValue.noConfusion h) rfl rfl
  · exact (C8_gen_ai_extractor_tolerant c8jl c8attrs).2.1
      "gen_ai.request.max_tokens" "max_tokens" (PyValue.float PyFloat.nan) c8dw
      (by decide) (by decide) rfl (fun h => PyValue.noConfusion h) rfl rfl
  · exact (C8_gen_ai_extractor_tolerant c8jl c8attrs).2.2.1
      "gen_ai.input.messages" "input_messages" "not json" c8dw
      (by decide) (by decide) rfl rfl rfl
  · exact (C8_gen_ai_extractor_tolerant c8jl c8attrs).2.2.2
      "gen_ai.request.top_p" "top_p" c8dw (by decide) rfl rfl

/-- Claim C5: for a single projected batch persisted against a database
with no existing row for `(project, trace_id)`, the created Trace row's
`started_at` is the minimum of the spans' resolved start times and its
`ended_at` the maximum of the resolved end times, each falling back to
the batch's `received_at` when no span resolves that side. -/
theorem C5_trace_bounds_min_max :
    ∀ (db : DB) (project : Nat) (received_at : Int) (ed : ExtractedTrace),
      ed.spans ≠ [] →
      (∀ t ∈ db.traces, ¬ (t.project = project ∧ t.trace_id = ed.trace_id)) →
      ∃ row : TraceRow,
        (create_trace_and_spans db project received_at (some ed)).1.traces
          = db.traces ++ [row]
        ∧ row.trace_id = ed.trace_id ∧ row.project = project
        ∧ row.started_at
            = (pyMin? (ed.spans.filterMap (fun s => s.start_time))).getD received_at
        ∧ row.ended_at
            = (pyMax? (ed.spans.filterMap (fun s => s.end_time))).getD received_at
        ∧ (ed.spans.filterMap (fun s => s.start_time) = [] → row.started_at = received_at)
        ∧ (ed.spans.filterMap (fun s => s.end_time) = [] → row.ended_at = received_at) := by
  intro db project received_at ed h1 h2
  have hfind : findTrace? db.traces project ed.trace_id = Option.none :=
    (findTrace?_eq_none_iff db.traces project ed.trace_id).mpr h2
  have hempty : ed.spans.isEmpty = false := by
    cases hsp : ed.spans with
    | nil => exact absurd hsp h1
    | cons a l => rfl
  refine ⟨{ id := db.nextTraceId, project := project, trace_id := ed.trace_id,
            started_at :=
              (pyMin? (ed.spans.filterMap (fun s => s.start_time))).getD received_at,
            ended_at :=
              (pyMax? (ed.spans.filterMap (fun s => s.end_time))).getD received_at,
            metadata := ed.resource_attrs }, ?_, rfl, rfl, rfl, rfl, ?_, ?_⟩
  · simp only [create_trace_and_spans, hempty, hfind, Bool.false_eq_true,
      if_false]
  · intro h0; simp [h0, pyMin?]
  · intro h0; simp [h0, pyMax?]

theorem C5_trace_bounds_min_max_witness :
    ((create_trace_and_spans c5db 0 100 (some c5ed)).1.traces.map TraceRow.started_at = [1]
      ∧ (create_trace_and_spans c5db 0 100 (some c5ed)).1.traces.map TraceRow.ended_at = [7])
    ∧ ∃ row : TraceRow,
        (create_trace_and_spans c5db 0 100 (some c5ed)).1.traces = c5db.traces ++ [row]
        ∧ row.trace_id = c5ed.trace_id ∧ row.project = 0
        ∧ row.started_at = (pyMin? (c5ed.spans.filterMap (fun s => s.start_time))).getD 100
        ∧ row.ended_at = (pyMax? (c5ed.spans.filterMap (fun s => s.end_time))).getD 100
        ∧ (c5ed.spans.filterMap (fun s => s.start_time) = [] → row.started_at = 100)
        ∧ (c5ed.spans.filterMap (fun s => s.end_time) = [] → row.ended_at = 100) := by
  constructor
  · exact ⟨rfl, rfl⟩
  · exact C5_trace_bounds_min_max c5db 0 100 c5ed (by simp [c5ed]) (by simp [c5db])

/-- Claim C4 as stated is false: reprocessing recomputes the trace
window from the incoming batch only, so an existing child span with an
earlier start is ignored and the stored `started_at` (50) sits strictly
above the minimum start time (0) over the trace's child spans after
processing. -/
theorem C4_counterexample :
    c4result.traces.map TraceRow.started_at = [50]
    ∧ pyMin? (c4result.spans.filterMap
        (fun s => if s.trace = 0 then some s.start_time else Option.none)) = some 0
    ∧ (50 : Int) ≠ 0 := by
  refine ⟨rfl, rfl, by decide⟩

/-- Claim C4 (amended): when a Trace row for `(project, trace_id)`
already exists, `_create_trace_and_spans` overwrites its `started_at`,
`ended_at` and `metadata` with values recomputed from the incoming
batch's spans alone (falling back to `received_at`); existing child
spans are not consulted, so reprocessing can narrow or shift the
window. -/
theorem C4_bounds_recomputed_from_batch_only :
    ∀ (db : DB) (project : Nat) (received_at : Int) (ed : ExtractedTrace)
      (i : Nat) (old : TraceRow),
      ed.spans ≠ [] →
      findTrace? db.traces project ed.trace_id = some (i, old) →
      (create_trace_and_spans db project received_at (some ed)).1.traces
        = db.traces.set i
            { old with
              started_at :=
                (pyMin? (ed.spans.filterMap (fun s => s.start_time))).getD received_at,
              ended_at :=
                (pyMax? (ed.spans.filterMap (fun s => s.end_time))).getD received_at,
              metadata := ed.resource_attrs } := by
  intro db project received_at ed i old h1 hfind
  have hempty : ed.spans.isEmpty = false := by
    cases hsp : ed.spans with
    | nil => exact absurd hsp h1
    | cons a l => rfl
  simp only [create_trace_and_spans, hempty, hfind, Bool.false_eq_true, if_false]

theorem C4_bounds_recomputed_from_batch_only_witness :
    findTrace? c4db.traces 7 c4ed.trace_id = some (0, c4old)
    ∧ c4result.traces
        = c4db.traces.set 0
            { c4old with
              started_at := (pyMin? (c4ed.spans.filterMap (fun s => s.start_time))).getD 999,
              ended_at := (pyMax? (c4ed.spans.filterMap (fun s => s.end_time))).getD 999,
              metadata := c4ed.resource_attrs } := by
  constructor
  · rfl
  · exact C4_bounds_recomputed_from_batch_only c4db 7 999 c4ed 0 c4old
      (by simp [c4ed]) rfl

/-- Exceptions escaping `_process_span` come from the gen-AI coercions
and are always `OverflowError`. -/
theorem processSpan_err (jl : String → Option PyValue) (sp : OtlpSpan) (e : PyExc)
    (h : _process_span jl sp = .error e) : e = PyExc.overflow := by
  unfold _process_span at h
  cases hg : extract_gen_ai_fields jl (parse_attributes sp.attributes) with
  | error e' =>
      simp only [hg] at h
      have he : e' = e := Except.error.inj h
      exact he ▸ extract_gen_ai_err jl _ e' hg
  | ok gf => simp only [hg] at h; cases h

/-- Claim C6 as stated is false: in a document whose first span carries
no `trace_id` but whose second span carries a decodable one, the first
span does not decide the identifier and the document is not a
projection failure — the extractor returns a record whose trace id
comes from the second span. -/
theorem C6_counterexample :
    (docSpans c6ctd).head?.map OtlpSpan.trace_id = some Option.none
    ∧ (okOrNone (extract_trace_data (fun _ => Option.none) c6ctd)).map
        ExtractedTrace.trace_id = some "000000" := by
  exact ⟨rfl, rfl⟩

/-- Claim C6 (amended): `extract_trace_data` raises only
`OverflowError` (from a span's gen-AI coercions); whenever it returns,
the document's trace identifier is the one of the first span, in
document order, whose `trace_id` field decodes (spans whose field is
absent, empty, or undecodable are passed over), and the call returns
the "nothing to project" result exactly when there are no
resource-span groups or no span yields a decodable identifier. -/
theorem C6_first_decodable_span_establishes_id :
    ∀ (jl : String → Option PyValue) (td : TracesDict),
      (∀ e, extract_trace_data jl td = .error e → e = PyExc.overflow)
      ∧ (∀ res, extract_trace_data jl td = .ok res →
          ((res = Option.none ↔
             (td.resource_spans.isEmpty = true ∨
              (docSpans td).findSome? (fun sp => _decode_base64_id sp.trace_id)
                = Option.none))
           ∧ (∀ r, res = some r →
               (docSpans td).findSome? (fun sp => _decode_base64_id sp.trace_id)
                 = some r.trace_id))) := by
  intro jl td
  constructor
  · intro e h
    unfold extract_trace_data at h
    by_cases hemp : td.resource_spans.isEmpty
    · simp [hemp] at h
    · simp only [hemp, if_false] at h
      cases hf : foldE
          (genResourceStepE (fun sp => _decode_base64_id sp.trace_id) (_process_span jl))
          ⟨[], Option.none, []⟩ td.resource_spans with
      | error e' =>
          simp only [hf] at h
          have he : e' = e := Except.error.inj h
          obtain ⟨sp, hmem, hsp⟩ := resFoldE_err _ _ td.resource_spans _ e' hf
          exact he ▸ processSpan_err jl sp e' hsp
      | ok st =>
          simp only [hf] at h
          cases hst : st.trace_id <;> simp [hst] at h
  · intro res hres
    unfold extract_trace_data at hres
    by_cases hemp : td.resource_spans.isEmpty
    · rw [if_pos hemp] at hres
      have hr : Option.none = res := Except.ok.inj hres
      subst hr
      constructor
      · constructor
        · intro _; exact Or.inl hemp
        · intro _; rfl
      · intro r hr; exact Option.noConfusion hr
    · rw [if_neg hemp] at hres
      cases hf : foldE
          (genResourceStepE (fun sp => _decode_base64_id sp.trace_id) (_process_span jl))
          ⟨[], Option.none, []⟩ td.resource_spans with
      | error e => simp only [hf] at hres; cases hres
      | ok st =>
          simp only [hf] at hres
          have htid : st.trace_id
              = (docSpans td).findSome? (fun sp => _decode_base64_id sp.trace_id) := by
            simpa [docSpans] using resFoldE_tid_ok _ _ td.resource_spans _ st hf
          cases hst : st.trace_id with
          | none =>
              simp only [hst] at hres
              rw [hst] at htid
              have hr : Option.none = res := Except.ok.inj hres
              subst hr
              constructor
              · constructor
                · intro _; exact Or.inr htid.symm
                · intro _; rfl
              · intro r hr; exact Option.noConfusion hr
          | some tid =>
              simp only [hst] at hres
              rw [hst] at htid
              have hr : some (⟨tid, st.resource_attrs, st.all_spans⟩ : ExtractedTrace)
                  = res := Except.ok.inj hres
              subst hr
              constructor
              · constructor
                · intro hco; exact Option.noConfusion hco
                · intro hco
                  rcases hco with hco | hco
                  · exact absurd hco hemp
                  · rw [← htid] at hco; exact Option.noConfusion hco
              · intro r hr
                have hrr := Option.some.inj hr
                subst hrr
                exact htid.symm

theorem C6_first_decodable_span_establishes_id_witness :
    (docSpans c6wtd).findSome? (fun sp => _decode_base64_id sp.trace_id)
      = some "000000" := by
  exact (((C6_first_decodable_span_establishes_id (fun _ => Option.none) c6wtd).2
      (some c6rec) rfl).2) c6rec rfl

/-- Claim C10 as stated is false: on a document whose only span carries
the undecodable `trace_id` text `"abc"` (incorrect base64 padding), the
standalone `extract_trace_data` returns the nothing-to-project `None`
while `RawTrace._extract_trace_data` falls back to the raw text and
returns a record with trace id `"abc"`. -/
theorem C10_counterexample :
    extract_trace_data (fun _ => Option.none) c10ctd = .ok Option.none
    ∧ (okOrNone (rawTrace_extract_trace_data (fun _ => Option.none) c10ctd)).map
        ExtractedTrace.trace_id = some "abc" := by
  exact ⟨rfl, rfl⟩

/-- Claim C10 (amended): the two projector implementations compute the
same result — same outcome, same trace identifier, same ordered span
records, and the same propagated exception on a raising input — on
every document in which each span's `trace_id` and `span_id` fields are
absent, empty, or valid base64; they disagree on documents with a
truthy id that is not valid base64, where `extract_trace_data` skips
the value (`None`) while `RawTrace._extract_trace_data` keeps the raw
text. -/
theorem C10_projectors_agree_on_decodable_ids :
    ∀ (jl : String → Option PyValue) (td : TracesDict),
      (∀ sp ∈ docSpans td, idOk sp.trace_id ∧ idOk sp.span_id) →
      extract_trace_data jl td = rawTrace_extract_trace_data jl td := by
  intro jl td h
  unfold extract_trace_data rawTrace_extract_trace_data
  by_cases he : td.resource_spans.isEmpty
  · simp [he]
  · simp only [he, if_false]
    rw [resFoldE_congr (fun sp => _decode_base64_id sp.trace_id)
      (fun sp => b64DecodeOrRaw sp.trace_id) (_process_span jl)
      (rawTraceProcessSpan jl) td.resource_spans
      (fun sp hsp => decode_eq_of_idOk sp.trace_id (h sp hsp).1)
      (fun sp hsp => process_eq_of_idOk jl sp (h sp hsp).2)
      ⟨[], Option.none, []⟩]

/-- Concrete document for the C10 witness: one span whose ids are both
valid base64. -/
theorem C10_projectors_agree_on_decodable_ids_witness :
    (∀ sp ∈ docSpans c10wtd, idOk sp.trace_id ∧ idOk sp.span_id)
    ∧ extract_trace_data (fun _ => Option.none) c10wtd
        = rawTrace_extract_trace_data (fun _ => Option.none) c10wtd := by
  constructor
  · decide
  · exact C10_projectors_agree_on_decodable_ids (fun _ => Option.none) c10wtd
      (by decide)

/-- Claim C9: `TraceListView.post` — a protobuf-content-typed request
whose storage succeeds appends one RawTrace row holding the raw bytes,
the resolved project and the current timestamp with status `"pending"`,
enqueues exactly one job keyed by the new row's id, and returns
`201 {}`; any other content type returns 400 with an error body,
stores nothing and enqueues nothing; a storage exception returns 400
with the message and enqueues nothing. -/
theorem C9_ingestion_endpoint :
    ∀ (db : DB) (queue : List Nat) (project : Nat) (now : Int)
      (ct : String) (body : List Nat) (ok : Bool) (msg : String),
      (ct ≠ "application/x-protobuf" →
        tracePostView db queue project now ct body ok msg
          = (db, queue, ⟨400, [("error", PyValue.str "Unsupported content type")]⟩))
      ∧ (ct = "application/x-protobuf" → ok = false →
        tracePostView db queue project now ct body ok msg
          = (db, queue, ⟨400, [("error", PyValue.str msg)]⟩))
      ∧ (ct = "application/x-protobuf" → ok = true →
        tracePostView db queue project now ct body ok msg
          = ({ db with rawTraces := db.rawTraces ++
                 [{ id := db.rawTraces.length, project := project, payload := body,
                    received_at := now, status := "pending" }] },
             queue ++ [db.rawTraces.length], ⟨201, []⟩)) := by
  intro db queue project now ct body ok msg
  refine ⟨?_, ?_, ?_⟩
  · intro h; simp [tracePostView, h]
  · intro h hok; subst hok; simp [tracePostView, h]
  · intro h hok; subst hok; simp [tracePostView, h]

theorem C9_ingestion_endpoint_witness :
    tracePostView c5db [] 3 42 "application/x-protobuf" [9, 8] true "boom"
      = ({ c5db with rawTraces :=
             [{ id := 0, project := 3, payload := [9, 8], received_at := 42,
                status := "pending" }] },
         [0], ⟨201, []⟩)
    ∧ tracePostView c5db [] 3 42 "text/plain" [9, 8] true "boom"
      = (c5db, [], ⟨400, [("error", PyValue.str "Unsupported content type")]⟩)
    ∧ tracePostView c5db [] 3 42 "application/x-protobuf" [9, 8] false "boom"
      = (c5db, [], ⟨400, [("error", PyValue.str "boom")]⟩) := by
  refine ⟨?_, ?_, ?_⟩
  · exact (C9_ingestion_endpoint c5db [] 3 42 "application/x-protobuf" [9, 8] true "boom").2.2
      rfl rfl
  · exact (C9_ingestion_endpoint c5db [] 3 42 "text/plain" [9, 8] true "boom").1
      (by decide)
  · exact (C9_ingestion_endpoint c5db [] 3 42 "application/x-protobuf" [9, 8] false "boom").2.1
      rfl rfl

/-- Claim C1 fails in the code: `process_trace` parses the stored bytes
and marks the batch `"processed"`, but never invokes the projector or
`_create_trace_and_spans`, so running the worker on a batch whose bytes
parse to the spec's example document leaves zero Trace rows and zero
Span rows — even though the document itself projects to one trace
record (hex id `ab` times 16) with two span records. -/
theorem C1_worker_writes_no_rows :
    (process_trace (fun _ => some exampleDoc) exampleDb 0).1.traces = []
    ∧ (process_trace (fun _ => some exampleDoc) exampleDb 0).1.spans = []
    ∧ (process_trace (fun _ => some exampleDoc) exampleDb 0).1.rawTraces.map
        RawTraceRow.status = ["processed"]
    ∧ (process_trace (fun _ => some exampleDoc) exampleDb 0).2 = Except.ok exampleDoc
    ∧ (okOrNone (extract_trace_data (fun _ => Option.none) exampleDoc)).map
        (fun r => (r.trace_id, r.spans.length))
      = some ("abababababababababababababababab", 2) := by
  exact ⟨rfl, rfl, rfl, rfl, rfl⟩

/-- Claim C2 fails in the code: `process_trace` has no exception
handler, so when the stored bytes are not valid protobuf the
`DecodeError` propagates and the database state is unchanged — the
batch's status is still `"pending"`, not `"error"`; no Trace or Span
rows are created (nothing is ever written on this path). -/
theorem C2_error_status_never_written :
    (process_trace (fun _ => Option.none) exampleDb 0).1 = exampleDb
    ∧ (process_trace (fun _ => Option.none) exampleDb 0).2
        = Except.error "google.protobuf.message.DecodeError"
    ∧ exampleDb.rawTraces.map RawTraceRow.status = ["pending"]
    ∧ (process_trace (fun _ => Option.none) exampleDb 0).1.traces = []
    ∧ (process_trace (fun _ => Option.none) exampleDb 0).1.spans = [] := by
  exact ⟨rfl, rfl, rfl, rfl, rfl⟩

/-- Claim C3 fails in the code: the Trace side is idempotent
(`get_or_create` by project and trace id keeps one row), but the `Span`
model declares no uniqueness constraint, so
`bulk_create(..., ignore_conflicts=True)` has no conflict to ignore and
persisting the same projected document twice duplicates every span row:
after two runs there are 4 Span rows, and the natural key
`(trace, span_id) = (0, "0101")` occurs twice. -/
theorem C3_duplicate_spans_inserted :
    c3db1.traces.length = 1 ∧ c3db1.spans.length = 2
    ∧ c3db2.traces.length = 1 ∧ c3db2.spans.length = 4
    ∧ (c3db2.spans.filter
        (fun s => s.trace == 0 && s.span_id == some "0101")).length = 2 := by
  exact ⟨rfl, rfl, rfl, rfl, rfl⟩
